import Mathlib

/-!
Verification of the ECS_CPP header-only entity/component/system registry
(`src/ECS.hpp`) against its natural-language specification.

The C++ source is shallowly embedded:

* `Entity` (`std::uint64_t` handles) and `ComponentType` become `Nat`;
  `Signature` (`std::bitset<32>`) becomes a `Nat` read through
  `Nat.testBit`, with bit mutation as in `std::bitset::set`.
* `std::queue<Entity>` becomes a `List Nat` whose head is the queue front
  and where push appends at the back.
* `std::unordered_map` becomes an association list `List (Nat × β)` with
  lookup (`alLookup`), `operator[]`-style write (`alSetd`, replace or
  append), `insert` (`alInsert`, which does NOT overwrite an existing
  key, exactly like `std::unordered_map::insert`) and `erase` (`alErase`).
  Iteration order of an `unordered_map` is unspecified in C++; the models
  iterate in list order, and no settled property depends on the order.
* `std::set<Entity>` becomes a `List Nat` used as a set (`setInsert`
  inserts only when absent, `setErase` removes every occurrence); only
  membership matters to the specification.
* Failing `assert(...)` statements become `Except.error` values of the
  spec's error taxonomy; each success path returns the updated state.
-/

set_option autoImplicit false

namespace ECS

/-- `ECS_ENTITY_MAX` / `ENTITY_MAX` from `ECS.hpp` (default configuration). -/
def ENTITY_MAX : Nat := 5000

/-- `ECS_COMPONENT_MAX` / `COMPONENT_MAX` from `ECS.hpp` (default configuration):
the width of the `std::bitset` backing `Signature`. -/
def COMPONENT_MAX : Nat := 32

/-- The word size backing `Entity` and the living-entity counter
(`std::uint64_t` on a 64-bit host). -/
def WORD : Nat := 2 ^ 64

/-- The spec's error taxonomy (§7).  Each failing `assert` in `ECS.hpp` is
mapped to the corresponding error.  `bitsetRange` models the
`std::out_of_range` exception thrown by `std::bitset::set` when the bit
position is at least `COMPONENT_MAX`; it is not part of the spec taxonomy
but is needed to keep the embedding total. -/
inductive Err where
  | capacityExceeded
  | invalidEntity
  | duplicateReg
  | notRegistered
  | duplicateComponent
  | missingComponent
  | bitsetRange
  deriving DecidableEq, Repr

/-- Association-list lookup: the value stored under key `k`, if any.
Models `std::unordered_map::find` / the read side of `operator[]`. -/
def alLookup {β : Type} : List (Nat × β) → Nat → Option β
  | [], _ => none
  | p :: rest, k => if p.1 = k then some p.2 else alLookup rest k

/-- Association-list write-through, the assignment `m[k] = v`: replaces the
value under `k` when present, otherwise appends the new pair. -/
def alSetd {β : Type} : List (Nat × β) → Nat → β → List (Nat × β)
  | [], k, v => [(k, v)]
  | p :: rest, k, v => if p.1 = k then (k, v) :: rest else p :: alSetd rest k v

/-- `std::unordered_map::insert`: stores `(k, v)` only when `k` is absent;
an existing entry for `k` is left unchanged and the call is a no-op. -/
def alInsert {β : Type} (m : List (Nat × β)) (k : Nat) (v : β) : List (Nat × β) :=
  if (alLookup m k).isSome then m else m ++ [(k, v)]

/-- `std::unordered_map::erase` by key. -/
def alErase {β : Type} (m : List (Nat × β)) (k : Nat) : List (Nat × β) :=
  m.filter (fun p => p.1 ≠ k)

/-- The keys of an association list. -/
def alKeys {β : Type} (m : List (Nat × β)) : List Nat :=
  m.map Prod.fst

/-- `std::bitset::set(pos, value)` on the `Nat` encoding of a `Signature`:
set or clear bit `pos`.  (`std::bitset::set` throws when `pos` is not below
`COMPONENT_MAX`; the callers in the embedding guard for that.) -/
def sigSet (s : Nat) (i : Nat) (b : Bool) : Nat :=
  if b then s ||| 2 ^ i else Nat.ldiff s (2 ^ i)

/-- The membership test of `SystemManager::signatureChanged` as the source
writes it: `(signatureEntity && signatureSystem) == signatureSystem`
(`ECS.hpp` line 471).  For `std::bitset` operands `operator&&` does not
exist, so the expression as written is ill-formed C++; this definition
gives it the scalar reading that spec §9 warns about for integral
signatures: each operand collapses to its truthiness, the logical AND
yields `1` or `0`, and that value is compared with the mask. -/
def membershipTestCode (sigE sigS : Nat) : Bool :=
  decide ((if sigE ≠ 0 ∧ sigS ≠ 0 then (1 : Nat) else 0) = sigS)

/-- Modelled from the spec (§4.4): the membership test the specification
mandates, a per-bit AND followed by equality against the mask.  Present
only to compare against `membershipTestCode`; the `Registry` model below
always uses the source's test. -/
def membershipTestSpec (sigE sigS : Nat) : Bool :=
  decide (sigE &&& sigS = sigS)

/-- `std::set<Entity>::insert`: a no-op when the element is present. -/
def setInsert (s : List Nat) (e : Nat) : List Nat :=
  if e ∈ s then s else s ++ [e]

/-- `std::set<Entity>::erase` by value: removing an absent element is a
no-op. -/
def setErase (s : List Nat) (e : Nat) : List Nat :=
  s.filter (fun x => x ≠ e)

/-- `EntityManager` (`ECS.hpp` lines 89-173): `entitiesAvailable_` is the
FIFO queue of recyclable handles (list head = queue front, push appends at
the back), `entitiesLiving_` the `std::uint64_t` counter of living
entities, and `signatures_` the `std::array<Signature, ENTITY_MAX>`,
modelled as a function since every array access in the class is guarded by
an `entity < ENTITY_MAX` assert. -/
structure EntityManager where
  entitiesAvailable : List Nat
  entitiesLiving : Nat
  signatures : Nat → Nat

/-- The `EntityManager` constructor: queue filled with `0, 1, ...,
ENTITY_MAX - 1` in that order (written `List.range' 0 ENTITY_MAX`, the
head-incremental spelling of `List.range ENTITY_MAX`), no living
entities, all signatures zero-initialised. -/
def EntityManager.init : EntityManager :=
  { entitiesAvailable := List.range' 0 ENTITY_MAX
    entitiesLiving := 0
    signatures := fun _ => 0 }

/-- The decrement `--entitiesLiving_` of the unsigned 64-bit counter: wraps
to `2 ^ 64 - 1` at zero. -/
def decWrap (n : Nat) : Nat :=
  if n = 0 then WORD - 1 else n - 1

/-- `EntityManager::create` (`ECS.hpp` 109-125): the
`entitiesLiving_ < ENTITY_MAX` assert becomes `capacityExceeded`; on
success the front of the queue is issued, popped, and the counter
incremented (the guard keeps the increment far from the `uint64_t` wrap).
`std::queue::front` on an empty queue is undefined behaviour in C++; the
model reads `headD 0 / tail` there, a state unreachable from `init`
because the counter plus the queue length stays `ENTITY_MAX`. -/
def EntityManager.create (em : EntityManager) : Except Err (Nat × EntityManager) :=
  if em.entitiesLiving < ENTITY_MAX then
    .ok (em.entitiesAvailable.headD 0,
      { em with
          entitiesAvailable := em.entitiesAvailable.tail
          entitiesLiving := em.entitiesLiving + 1 })
  else .error .capacityExceeded

/-- `EntityManager::destroy` (`ECS.hpp` 128-141): the only check is the
`entity < ENTITY_MAX` range assert (`invalidEntity`); on success the
signature is reset, the handle pushed at the back of the queue, and the
counter decremented (wrapping, as the `std::uint64_t` does). -/
def EntityManager.destroy (em : EntityManager) (entity : Nat) : Except Err EntityManager :=
  if entity < ENTITY_MAX then
    .ok { entitiesAvailable := em.entitiesAvailable ++ [entity]
          entitiesLiving := decWrap em.entitiesLiving
          signatures := fun x => if x = entity then 0 else em.signatures x }
  else .error .invalidEntity

/-- `EntityManager::signature(Entity)` (`ECS.hpp` 144-151), the getter:
range-checked read of the signature array. -/
def EntityManager.signatureGet (em : EntityManager) (entity : Nat) : Except Err Nat :=
  if entity < ENTITY_MAX then .ok (em.signatures entity) else .error .invalidEntity

/-- `EntityManager::signature(Entity, Signature)` (`ECS.hpp` 154-161), the
setter: range-checked write of the signature array. -/
def EntityManager.signatureSet (em : EntityManager) (entity s : Nat) :
    Except Err EntityManager :=
  if entity < ENTITY_MAX then
    .ok { em with signatures := fun x => if x = entity then s else em.signatures x }
  else .error .invalidEntity

/-- One allocator call in a create/destroy call sequence. -/
inductive EMOp where
  | create
  | destroy (entity : Nat)

/-- Execute one allocator call (the handle returned by `create` is dropped;
`emRun` tracks only the state). -/
def emStep (em : EntityManager) : EMOp → Except Err EntityManager
  | .create => (em.create).map Prod.snd
  | .destroy e => em.destroy e

/-- Execute a sequence of allocator calls, stopping at the first error. -/
def emRun (em : EntityManager) : List EMOp → Except Err EntityManager
  | [] => .ok em
  | op :: rest => do
    let em' ← emStep em op
    emRun em' rest

/-- The spec-level precondition of one allocator call: `create` requires
free capacity, `destroy` requires a live handle (in range and not in the
recycling pool). -/
def emValidOp (em : EntityManager) : EMOp → Bool
  | .create => decide (em.entitiesLiving < ENTITY_MAX)
  | .destroy e => decide (e < ENTITY_MAX) && !(decide (e ∈ em.entitiesAvailable))

/-- A call sequence in which every call satisfies its spec-level
precondition at the state where it runs. -/
def emValidSeq (em : EntityManager) : List EMOp → Bool
  | [] => true
  | op :: rest =>
    emValidOp em op &&
      (match emStep em op with
        | .ok em' => emValidSeq em' rest
        | .error _ => false)

/-- The number of live handles: a handle is live exactly when it is in
range and not in the recycling pool. -/
def EntityManager.liveCount (em : EntityManager) : Nat :=
  ((Finset.range ENTITY_MAX).filter
    (fun e => e ∉ em.entitiesAvailable)).card

/-- Allocator invariant: the recycling pool has no duplicates, holds only
in-range handles whose stored signature is zero, and complements the
living counter to `ENTITY_MAX`. -/
def EMInv (em : EntityManager) : Prop :=
  em.entitiesAvailable.Nodup ∧
  (∀ e ∈ em.entitiesAvailable, e < ENTITY_MAX ∧ em.signatures e = 0) ∧
  em.entitiesLiving + em.entitiesAvailable.length = ENTITY_MAX

/-- `ComponentContainer<T>` (`ECS.hpp` lines 192-292): the dense component
array (`components_`, modelled as a function because every read the class
performs is at a mapped index), the two bidirectional maps, and the count
of occupied slots.  (The C++ constructor initialiser
`components_(std::array<T, ENTITY_MAX>)` is ill-formed as written; the
intended default-initialised array is modelled by `empty`.) -/
structure ComponentContainer (T : Type) where
  components : Nat → T
  mapEntityToIndex : List (Nat × Nat)
  mapIndexToEntity : List (Nat × Nat)
  size : Nat

/-- A freshly constructed, empty `ComponentContainer<T>`. -/
def ComponentContainer.empty (T : Type) [Inhabited T] : ComponentContainer T :=
  { components := fun _ => default
    mapEntityToIndex := []
    mapIndexToEntity := []
    size := 0 }

/-- `ComponentContainer::get` (`ECS.hpp` 220-227): the presence assert
becomes `missingComponent`; on success the component at the entity's
mapped slot is returned. -/
def ComponentContainer.get {T : Type} (c : ComponentContainer T) (entity : Nat) :
    Except Err T :=
  match alLookup c.mapEntityToIndex entity with
  | none => .error .missingComponent
  | some i => .ok (c.components i)

/-- `ComponentContainer::insert` (`ECS.hpp` 230-247): the absence assert
becomes `duplicateComponent`; on success the value is appended at slot
`size_`, both maps gain the pair, and the count grows.  (The C++ write
`components_[index]` is an unchecked array store; for `size_ ≥
ENTITY_MAX` it would be out of bounds, which the registry-level capacity
bound keeps unreachable.) -/
def ComponentContainer.insert {T : Type} (c : ComponentContainer T) (entity : Nat)
    (component : T) : Except Err (ComponentContainer T) :=
  if (alLookup c.mapEntityToIndex entity).isSome then .error .duplicateComponent
  else
    .ok { components := fun i => if i = c.size then component else c.components i
          mapEntityToIndex := alSetd c.mapEntityToIndex entity c.size
          mapIndexToEntity := alSetd c.mapIndexToEntity c.size entity
          size := c.size + 1 }

/-- The success path of `ComponentContainer::remove` (`ECS.hpp` 256-276),
given the slot `indexRemoved` the entity is mapped to.  Mirrors the
source statement by statement: copy the last slot's value over the
removed slot, repoint `entityLast` (read through `operator[]`; the
default-insertion `operator[]` would perform on a missing key is
immediately overwritten or erased again, so the plain read is
extensionally faithful), then erase the removed entity's key and the last
slot's key, and decrement the count. -/
def ComponentContainer.removeAt {T : Type} (c : ComponentContainer T)
    (indexRemoved entity : Nat) : ComponentContainer T :=
  let indexLast := c.size - 1
  let entityLast := (alLookup c.mapIndexToEntity indexLast).getD 0
  { components := fun i => if i = indexRemoved then c.components indexLast
      else c.components i
    mapEntityToIndex := alErase (alSetd c.mapEntityToIndex entityLast indexRemoved) entity
    mapIndexToEntity := alErase (alSetd c.mapIndexToEntity indexRemoved entityLast) indexLast
    size := c.size - 1 }

/-- `ComponentContainer::remove` (`ECS.hpp` 250-277): the presence assert
becomes `missingComponent`; the success path is `removeAt`. -/
def ComponentContainer.remove {T : Type} (c : ComponentContainer T) (entity : Nat) :
    Except Err (ComponentContainer T) :=
  match alLookup c.mapEntityToIndex entity with
  | none => .error .missingComponent
  | some indexRemoved => .ok (c.removeAt indexRemoved entity)

/-- `ComponentContainer::destroyed` (`ECS.hpp` 209-217): a no-op when the
entity has no component here, otherwise `remove`. -/
def ComponentContainer.destroyed {T : Type} (c : ComponentContainer T) (entity : Nat) :
    ComponentContainer T :=
  match alLookup c.mapEntityToIndex entity with
  | none => c
  | some indexRemoved => c.removeAt indexRemoved entity

/-- `ComponentManager` (`ECS.hpp` 295-383), specialised to component values
of type `Nat` (the claims do not depend on the stored value type).  The
`const char*` keys produced by `typeid(T).name()` are modelled as `Nat`
keys: distinct component types get distinct keys.  `nextType_` has no
initialiser in the C++ (its initial value is indeterminate), so `init`
takes it as a parameter. -/
structure ComponentManager where
  componentTypes : List (Nat × Nat)
  componentContainer : List (Nat × ComponentContainer Nat)
  nextType : Nat

/-- A default-constructed `ComponentManager` whose indeterminate
`nextType_` reads as `firstType`. -/
def ComponentManager.init (firstType : Nat) : ComponentManager :=
  { componentTypes := [], componentContainer := [], nextType := firstType }

/-- `ComponentManager::getType` (`ECS.hpp` 323-333): the registration
assert becomes `notRegistered`. -/
def ComponentManager.getType (cm : ComponentManager) (ty : Nat) : Except Err Nat :=
  match alLookup cm.componentTypes ty with
  | some t => .ok t
  | none => .error .notRegistered

/-- `ComponentManager::install` (`ECS.hpp` 336-352): the absence assert
becomes `duplicateReg`; on success the type is keyed to `nextType_`, a
fresh container is stored, and `nextType_` is incremented.  (The C++
inserts into `componentContainer_` through a `std::pair<const char*,
ComponentType>` literal, which is ill-formed for that map's value type;
the evident intent, storing the freshly made `ComponentContainer<T>`, is
modelled.) -/
def ComponentManager.install (cm : ComponentManager) (ty : Nat) :
    Except Err ComponentManager :=
  if (alLookup cm.componentTypes ty).isSome then .error .duplicateReg
  else
    .ok { componentTypes := alInsert cm.componentTypes ty cm.nextType
          componentContainer := alInsert cm.componentContainer ty (ComponentContainer.empty Nat)
          nextType := cm.nextType + 1 }

/-- `ComponentManager::getContainer_` (`ECS.hpp` 372-382): the registration
assert becomes `notRegistered`; the `componentContainer_[type]` read is
modelled with a default for the (unreachable, since `install` fills both
maps together) absent case. -/
def ComponentManager.getContainer (cm : ComponentManager) (ty : Nat) :
    Except Err (ComponentContainer Nat) :=
  if (alLookup cm.componentTypes ty).isSome then
    .ok ((alLookup cm.componentContainer ty).getD (ComponentContainer.empty Nat))
  else .error .notRegistered

/-- `ComponentManager::add` (`ECS.hpp` 300-303): insert into the resolved
container.  The C++ mutates the container through a `shared_ptr`; the
model writes the updated container back. -/
def ComponentManager.add (cm : ComponentManager) (ty entity v : Nat) :
    Except Err ComponentManager := do
  let c ← cm.getContainer ty
  let c' ← c.insert entity v
  .ok { cm with componentContainer := alSetd cm.componentContainer ty c' }

/-- `ComponentManager::remove` (`ECS.hpp` 355-358): remove from the
resolved container. -/
def ComponentManager.remove (cm : ComponentManager) (ty entity : Nat) :
    Except Err ComponentManager := do
  let c ← cm.getContainer ty
  let c' ← c.remove entity
  .ok { cm with componentContainer := alSetd cm.componentContainer ty c' }

/-- `ComponentManager::destroyed` (`ECS.hpp` 306-314): notify every
container (iteration order of the `unordered_map` is unspecified; the
per-container updates are independent, so list order loses nothing). -/
def ComponentManager.destroyed (cm : ComponentManager) (entity : Nat) : ComponentManager :=
  { cm with componentContainer :=
      cm.componentContainer.map (fun p => (p.1, p.2.destroyed entity)) }

/-- `SystemManager` (`ECS.hpp` 399-487): per-system required masks and
membership sets, both keyed by the modelled `typeid` name.  A `System`
(`ECS.hpp` 390-396) is just its `std::set<Entity> entities`, so each
system is modelled by that set. -/
structure SystemManager where
  signatures : List (Nat × Nat)
  systems : List (Nat × List Nat)

/-- A default-constructed `SystemManager`: both maps empty. -/
def SystemManager.init : SystemManager :=
  { signatures := [], systems := [] }

/-- `SystemManager::install` (`ECS.hpp` 424-440): the absence assert
becomes `duplicateReg`; a fresh system with an empty entity set is
stored.  (No mask is stored for it here.) -/
def SystemManager.install (sm : SystemManager) (ty : Nat) : Except Err SystemManager :=
  if (alLookup sm.systems ty).isSome then .error .duplicateReg
  else .ok { sm with systems := alInsert sm.systems ty [] }

/-- `SystemManager::signature` (`ECS.hpp` 443-453), the mask setter: the
installation assert becomes `notRegistered`; the mask is stored with
`signatures_.insert(...)`, i.e. `alInsert`, which does NOT overwrite an
entry already present for the type. -/
def SystemManager.signature (sm : SystemManager) (ty mask : Nat) :
    Except Err SystemManager :=
  if (alLookup sm.systems ty).isSome then
    .ok { sm with signatures := alInsert sm.signatures ty mask }
  else .error .notRegistered

/-- `SystemManager::entityDestroyed` (`ECS.hpp` 414-421): erase the entity
from every system's set unconditionally. -/
def SystemManager.entityDestroyed (sm : SystemManager) (entity : Nat) : SystemManager :=
  { sm with systems := sm.systems.map (fun p => (p.1, setErase p.2 entity)) }

/-- The loop body of `SystemManager::signatureChanged` (`ECS.hpp` 456-478)
over the list of systems, threading the `signatures_` map because the
`signatures_[type]` read uses `operator[]`, which default-inserts a zero
mask for a type that has no stored mask yet.  Each system's set is
updated by the source's membership test `membershipTestCode`. -/
def signatureChangedGo (entity sigE : Nat) :
    List (Nat × Nat) → List (Nat × List Nat) → List (Nat × Nat) × List (Nat × List Nat)
  | sigs, [] => (sigs, [])
  | sigs, (ty, ents) :: rest =>
    let signatureSystem := (alLookup sigs ty).getD 0
    let sigs1 := if (alLookup sigs ty).isSome then sigs else sigs ++ [(ty, 0)]
    let ents' := if membershipTestCode sigE signatureSystem then setInsert ents entity
      else setErase ents entity
    let next := signatureChangedGo entity sigE sigs1 rest
    (next.1, (ty, ents') :: next.2)

/-- `SystemManager::signatureChanged` (`ECS.hpp` 456-478).  (In the source
this is a member template whose parameter `T` is unused and not deducible
at the call sites in `Registry`, which makes those calls ill-formed as
written; the evident intent, a plain member function, is modelled.) -/
def SystemManager.signatureChanged (sm : SystemManager) (entity sigE : Nat) :
    SystemManager :=
  let r := signatureChangedGo entity sigE sm.signatures sm.systems
  { signatures := r.1, systems := r.2 }

/-- `Registry` (`ECS.hpp` 494-601): the facade owning the three managers. -/
structure Registry where
  componentManager : ComponentManager
  entityManager : EntityManager
  systemManager : SystemManager

/-- A freshly constructed `Registry`; `firstType` is the indeterminate
initial value of the component manager's `nextType_`. -/
def Registry.init (firstType : Nat) : Registry :=
  { componentManager := ComponentManager.init firstType
    entityManager := EntityManager.init
    systemManager := SystemManager.init }

/-- `Registry::entityCreate` (`ECS.hpp` 510-513). -/
def Registry.entityCreate (r : Registry) : Except Err (Nat × Registry) := do
  let (e, em') ← r.entityManager.create
  .ok (e, { r with entityManager := em' })

/-- `Registry::entityDestroy` (`ECS.hpp` 516-521): allocator first, then
every component store, then every system set. -/
def Registry.entityDestroy (r : Registry) (entity : Nat) : Except Err Registry := do
  let em' ← r.entityManager.destroy entity
  .ok { componentManager := r.componentManager.destroyed entity
        entityManager := em'
        systemManager := r.systemManager.entityDestroyed entity }

/-- `Registry::componentAdd` (`ECS.hpp` 524-540), statement by statement:
`componentManager_->install<T>()` runs unconditionally (there is no
already-registered check before it); then the entity's signature is read,
bit `getType<T>()` is set (a position at or above `COMPONENT_MAX` would
make `std::bitset::set` throw, modelled by `bitsetRange`), the signature
is written back, and the system manager is notified.  The body contains
no `componentManager_->add` call, so the component value `v` is never
stored. -/
def Registry.componentAdd (r : Registry) (ty entity v : Nat) : Except Err Registry := do
  let cm' ← r.componentManager.install ty
  let sig ← r.entityManager.signatureGet entity
  let t ← cm'.getType ty
  if t < COMPONENT_MAX then
    let sig' := sigSet sig t true
    let em' ← r.entityManager.signatureSet entity sig'
    .ok { componentManager := cm'
          entityManager := em'
          systemManager := r.systemManager.signatureChanged entity sig' }
  else .error .bitsetRange

/-- `Registry::componentRemove` (`ECS.hpp` 555-571): remove from the store,
clear the signature bit, write the signature back, notify. -/
def Registry.componentRemove (r : Registry) (ty entity : Nat) : Except Err Registry := do
  let cm' ← r.componentManager.remove ty entity
  let sig ← r.entityManager.signatureGet entity
  let t ← cm'.getType ty
  if t < COMPONENT_MAX then
    let sig' := sigSet sig t false
    let em' ← r.entityManager.signatureSet entity sig'
    .ok { componentManager := cm'
          entityManager := em'
          systemManager := r.systemManager.signatureChanged entity sig' }
  else .error .bitsetRange

/-- `Registry::componentGet` (`ECS.hpp` 543-546). -/
def Registry.componentGet (r : Registry) (ty entity : Nat) : Except Err Nat := do
  let c ← r.componentManager.getContainer ty
  c.get entity

/-- `Registry::componentInstall` (`ECS.hpp` 549-552). -/
def Registry.componentInstall (r : Registry) (ty : Nat) : Except Err Registry := do
  let cm' ← r.componentManager.install ty
  .ok { r with componentManager := cm' }

/-- `Registry::componentType` (`ECS.hpp` 574-577). -/
def Registry.componentType (r : Registry) (ty : Nat) : Except Err Nat :=
  r.componentManager.getType ty

/-- `Registry::systemInstall` (`ECS.hpp` 580-583). -/
def Registry.systemInstall (r : Registry) (ty : Nat) : Except Err Registry := do
  let sm' ← r.systemManager.install ty
  .ok { r with systemManager := sm' }

/-- `Registry::systemSignature` (`ECS.hpp` 586-589). -/
def Registry.systemSignature (r : Registry) (ty mask : Nat) : Except Err Registry := do
  let sm' ← r.systemManager.signature ty mask
  .ok { r with systemManager := sm' }

/-- Well-formedness of a `ComponentContainer`: the two maps have no
duplicate keys, are bounded by `size` and mutually inverse, and every
slot below `size` is occupied — i.e. the occupied slots are exactly
`[0, size)`. -/
def CWF {T : Type} (c : ComponentContainer T) : Prop :=
  (alKeys c.mapEntityToIndex).Nodup ∧
  (alKeys c.mapIndexToEntity).Nodup ∧
  (∀ p ∈ c.mapEntityToIndex, p.2 < c.size ∧ alLookup c.mapIndexToEntity p.2 = some p.1) ∧
  (∀ q ∈ c.mapIndexToEntity, q.1 < c.size ∧ alLookup c.mapEntityToIndex q.2 = some q.1) ∧
  (∀ i, i < c.size → (alLookup c.mapIndexToEntity i).isSome = true)

/-- `k` consecutive `EntityManager::create` calls, collecting the issued
handles in order. -/
def createN (em : EntityManager) : Nat → Except Err (List Nat × EntityManager)
  | 0 => .ok ([], em)
  | k + 1 =>
    match em.create with
    | .error err => .error err
    | .ok (e, em1) =>
      match createN em1 k with
      | .error err => .error err
      | .ok (rest, em2) => .ok (e :: rest, em2)

/-- Scenario: on a fresh registry (indeterminate `nextType_` read as `0`),
create entity `0`, install system `100`, set its mask to `0b10`, then add
two different component types (type keys `1` and `2`) to the entity. -/
def c2Run : Except Err Registry := do
  let (_, r1) ← (Registry.init 0).entityCreate
  let r2 ← r1.systemInstall 100
  let r3 ← r2.systemSignature 100 2
  let r4 ← r3.componentAdd 1 0 77
  r4.componentAdd 2 0 88

/-- The registry state reached by `c2Run`. -/
def c2Reg : Registry := c2Run.toOption.getD (Registry.init 0)

/-- Scenario: create entities `0` and `1`, then `componentAdd` component
type `5` to entity `0`. -/
def c3Run1 : Except Err Registry := do
  let (_, r1) ← (Registry.init 0).entityCreate
  let (_, r2) ← r1.entityCreate
  r2.componentAdd 5 0 11

/-- Scenario continuing `c3Run1`: `componentAdd` the same component type
`5` to the other entity `1`. -/
def c3Run2 : Except Err Registry := do
  let r ← c3Run1
  r.componentAdd 5 1 22

/-- Scenario: create entity `0`, then `componentAdd` component type `5`
to it. -/
def c7Run : Except Err Registry := do
  let (_, r1) ← (Registry.init 0).entityCreate
  r1.componentAdd 5 0 99

/-- The registry state reached by `c7Run`. -/
def c7Reg : Registry := c7Run.toOption.getD (Registry.init 0)

/-- The component store for type `5` in `c7Reg`. -/
def c7Cont : ComponentContainer Nat :=
  (alLookup c7Reg.componentManager.componentContainer 5).getD (ComponentContainer.empty Nat)

/-- Scenario: install system `7` and set its mask to `1`. -/
def c4Sm1 : SystemManager :=
  ((SystemManager.init.install 7).bind (fun sm => sm.signature 7 1)).toOption.getD
    SystemManager.init

/-- Scenario continuing `c4Sm1`: set system `7`'s mask a second time, to
`2`. -/
def c4Res : Except Err SystemManager := c4Sm1.signature 7 2

/-- The system-manager state reached by `c4Res`. -/
def c4Sm2 : SystemManager := c4Res.toOption.getD SystemManager.init

/-- Scenario: on a fresh allocator, create one entity (handle `0`) and
destroy it, so that `0` is no longer live. -/
def c5Em : EntityManager :=
  (emRun EntityManager.init [EMOp.create, EMOp.destroy 0]).toOption.getD EntityManager.init

/-- Destroying the already-destroyed handle `0` a second time. -/
def c5Res : Except Err EntityManager := c5Em.destroy 0

/-- A concrete well-formed three-entry component store: entities `4`, `9`,
`7` in slots `0`, `1`, `2` with values `10`, `20`, `30`. -/
def c6c0 : ComponentContainer Nat :=
  { components := fun i => if i = 0 then 10 else if i = 1 then 20 else if i = 2 then 30 else 0
    mapEntityToIndex := [(4, 0), (9, 1), (7, 2)]
    mapIndexToEntity := [(0, 4), (1, 9), (2, 7)]
    size := 3 }

/-- The store `c6c0` after removing entity `9` (slot `1`): the last entity
`7` is relocated into slot `1`. -/
def c6c1 : ComponentContainer Nat :=
  (c6c0.remove 9).toOption.getD (ComponentContainer.empty Nat)

/-- The allocator state after one `create` on a fresh allocator. -/
def c8em : EntityManager :=
  (emRun EntityManager.init [EMOp.create]).toOption.getD EntityManager.init

/-- A small allocator state: handles `3` and `1` in the recycling queue,
`4998` living entities, all signatures zero. -/
def c9em : EntityManager :=
  { entitiesAvailable := [3, 1], entitiesLiving := 4998, signatures := fun _ => 0 }

@[simp] theorem alLookup_nil {β : Type} (k : Nat) : alLookup ([] : List (Nat × β)) k = none := rfl

@[simp] theorem alLookup_cons {β : Type} (p : Nat × β) (rest : List (Nat × β)) (k : Nat) :
    alLookup (p :: rest) k = if p.1 = k then some p.2 else alLookup rest k := rfl

@[simp] theorem alKeys_nil {β : Type} : alKeys ([] : List (Nat × β)) = [] := rfl

@[simp] theorem alKeys_cons {β : Type} (p : Nat × β) (rest : List (Nat × β)) :
    alKeys (p :: rest) = p.1 :: alKeys rest := rfl

theorem alErase_cons {β : Type} (p : Nat × β) (rest : List (Nat × β)) (k : Nat) :
    alErase (p :: rest) k = if p.1 = k then alErase rest k else p :: alErase rest k := by
  by_cases h : p.1 = k <;> simp [alErase, List.filter_cons, h]

theorem alLookup_append {β : Type} (m₁ m₂ : List (Nat × β)) (k : Nat) :
    alLookup (m₁ ++ m₂) k = ((alLookup m₁ k).or (alLookup m₂ k)) := by
  induction m₁ with
  | nil => simp
  | cons p rest ih =>
    by_cases h : p.1 = k <;> simp [h, ih]

theorem mem_of_alLookup {β : Type} {m : List (Nat × β)} {k : Nat} {v : β}
    (h : alLookup m k = some v) : (k, v) ∈ m := by
  induction m with
  | nil => simp at h
  | cons p rest ih =>
    rcases p with ⟨a, b⟩
    by_cases hk : a = k
    · simp only [alLookup_cons, hk, if_pos] at h
      injection h with h2
      subst h2
      subst hk
      exact List.mem_cons_self _ _
    · simp only [alLookup_cons, if_neg hk] at h
      exact List.mem_cons_of_mem _ (ih h)

theorem alLookup_of_mem {β : Type} {m : List (Nat × β)} {k : Nat} {v : β}
    (nd : (alKeys m).Nodup) (h : (k, v) ∈ m) : alLookup m k = some v := by
  induction m with
  | nil => simp at h
  | cons p rest ih =>
    rw [alKeys_cons, List.nodup_cons] at nd
    rcases List.mem_cons.mp h with h1 | h1
    · subst h1
      simp
    · have hk : p.1 ≠ k := by
        intro he
        refine nd.1 ?_
        rw [he]
        exact List.mem_map_of_mem Prod.fst h1
      simp [hk, ih nd.2 h1]

theorem alLookup_isSome_iff {β : Type} (m : List (Nat × β)) (k : Nat) :
    (alLookup m k).isSome = true ↔ k ∈ alKeys m := by
  induction m with
  | nil => simp
  | cons p rest ih =>
    by_cases h : p.1 = k
    · simp [h]
    · simp only [alLookup_cons, if_neg h, alKeys_cons, List.mem_cons, ih]
      constructor
      · exact Or.inr
      · rintro (h1 | h1)
        · exact absurd h1.symm h
        · exact h1

@[simp] theorem alLookup_alSetd_self {β : Type} (m : List (Nat × β)) (k : Nat) (v : β) :
    alLookup (alSetd m k v) k = some v := by
  induction m with
  | nil => simp [alSetd]
  | cons p rest ih =>
    by_cases h : p.1 = k <;> simp [alSetd, h, ih]

theorem alLookup_alSetd_ne {β : Type} (m : List (Nat × β)) (k k' : Nat) (v : β)
    (h : k' ≠ k) : alLookup (alSetd m k v) k' = alLookup m k' := by
  induction m with
  | nil => simp [alSetd, Ne.symm h]
  | cons p rest ih =>
    by_cases hp : p.1 = k
    · simp [alSetd, hp, Ne.symm h]
    · simp [alSetd, hp, ih]

@[simp] theorem alLookup_alErase_self {β : Type} (m : List (Nat × β)) (k : Nat) :
    alLookup (alErase m k) k = none := by
  induction m with
  | nil => simp [alErase]
  | cons p rest ih =>
    by_cases h : p.1 = k <;> simp [alErase_cons, h, ih]

theorem alLookup_alErase_ne {β : Type} (m : List (Nat × β)) (k k' : Nat)
    (h : k' ≠ k) : alLookup (alErase m k) k' = alLookup m k' := by
  induction m with
  | nil => simp [alErase]
  | cons p rest ih =>
    by_cases hp : p.1 = k
    · simp [alErase_cons, hp, ih, Ne.symm h]
    · simp [alErase_cons, hp, ih]

theorem mem_alErase {β : Type} {m : List (Nat × β)} {k : Nat} {p : Nat × β} :
    p ∈ alErase m k ↔ p ∈ m ∧ p.1 ≠ k := by
  simp [alErase, List.mem_filter]

theorem notMem_alKeys {β : Type} {m : List (Nat × β)} {k : Nat} {p : Nat × β}
    (hk : k ∉ alKeys m) (hp : p ∈ m) : p.1 ≠ k := by
  intro he
  exact hk (he ▸ List.mem_map_of_mem Prod.fst hp)

theorem mem_alSetd {β : Type} {m : List (Nat × β)} {k : Nat} {v : β} {p : Nat × β}
    (nd : (alKeys m).Nodup) (h : p ∈ alSetd m k v) :
    p = (k, v) ∨ (p ∈ m ∧ p.1 ≠ k) := by
  induction m with
  | nil =>
    simp [alSetd] at h
    exact Or.inl h
  | cons q rest ih =>
    rw [alKeys_cons, List.nodup_cons] at nd
    by_cases hq : q.1 = k
    · simp only [alSetd, hq, if_pos] at h
      rcases List.mem_cons.mp h with h1 | h1
      · exact Or.inl h1
      · have hkrest : k ∉ alKeys rest := hq ▸ nd.1
        exact Or.inr ⟨List.mem_cons_of_mem _ h1, notMem_alKeys hkrest h1⟩
    · simp only [alSetd, hq, if_neg, not_false_iff] at h
      rcases List.mem_cons.mp h with h1 | h1
      · subst h1
        exact Or.inr ⟨List.mem_cons_self _ _, hq⟩
      · rcases ih nd.2 h1 with h2 | h2
        · exact Or.inl h2
        · exact Or.inr ⟨List.mem_cons_of_mem _ h2.1, h2.2⟩

theorem alKeys_alSetd_nodup {β : Type} {m : List (Nat × β)} (k : Nat) (v : β)
    (nd : (alKeys m).Nodup) : (alKeys (alSetd m k v)).Nodup := by
  induction m with
  | nil => simp [alSetd]
  | cons q rest ih =>
    rw [alKeys_cons, List.nodup_cons] at nd
    by_cases hq : q.1 = k
    · subst hq
      have he : alSetd (q :: rest) q.1 v = (q.1, v) :: rest := by simp [alSetd]
      rw [he, alKeys_cons, List.nodup_cons]
      exact ⟨nd.1, nd.2⟩
    · simp only [alSetd, hq, if_neg, not_false_iff, alKeys_cons, List.nodup_cons]
      refine ⟨?_, ih nd.2⟩
      intro hmem
      rcases List.mem_map.mp hmem with ⟨p, hp, hpe⟩
      rcases mem_alSetd nd.2 hp with h1 | h1
      · exact hq (by rw [← hpe, h1])
      · exact nd.1 (hpe ▸ List.mem_map_of_mem Prod.fst h1.1)

theorem alKeys_alErase_nodup {β : Type} {m : List (Nat × β)} (k : Nat)
    (nd : (alKeys m).Nodup) : (alKeys (alErase m k)).Nodup := by
  have hsub : (alKeys (alErase m k)).Sublist (alKeys m) :=
    List.Sublist.map Prod.fst (List.filter_sublist m)
  exact nd.sublist hsub

theorem alKeys_alInsert_nodup {β : Type} {m : List (Nat × β)} (k : Nat) (v : β)
    (nd : (alKeys m).Nodup) : (alKeys (alInsert m k v)).Nodup := by
  unfold alInsert
  by_cases h : (alLookup m k).isSome
  · simpa [h] using nd
  · have hk : k ∉ alKeys m := fun hmem =>
      h ((alLookup_isSome_iff m k).mpr hmem)
    simp only [h, if_neg, Bool.not_eq_true, alKeys, List.map_append, List.map_cons,
      List.map_nil]
    rw [List.nodup_append]
    refine ⟨nd, List.nodup_singleton _, ?_⟩
    intro a ha hb
    simp at hb
    subst hb
    exact hk ha

theorem alLookup_alInsert_present {β : Type} (m : List (Nat × β)) (k : Nat) (v : β)
    (h : (alLookup m k).isSome = true) : alLookup (alInsert m k v) k = alLookup m k := by
  simp [alInsert, h]

theorem alLookup_alInsert_absent {β : Type} (m : List (Nat × β)) (k : Nat) (v : β)
    (h : alLookup m k = none) : alLookup (alInsert m k v) k = some v := by
  simp [alInsert, h, alLookup_append]

theorem alLookup_alInsert_ne {β : Type} (m : List (Nat × β)) (k k' : Nat) (v : β)
    (h : k' ≠ k) : alLookup (alInsert m k v) k' = alLookup m k' := by
  unfold alInsert
  by_cases hs : (alLookup m k).isSome
  · simp [hs]
  · simp [hs, alLookup_append, Ne.symm h]

theorem mem_setInsert {s : List Nat} {e x : Nat} :
    x ∈ setInsert s e ↔ x ∈ s ∨ x = e := by
  unfold setInsert
  by_cases h : e ∈ s
  · simp only [h, if_pos]
    constructor
    · exact Or.inl
    · rintro (h1 | h1)
      · exact h1
      · exact h1 ▸ h
  · simp [h, List.mem_append]

theorem mem_setErase {s : List Nat} {e x : Nat} :
    x ∈ setErase s e ↔ x ∈ s ∧ x ≠ e := by
  simp [setErase, List.mem_filter]

theorem em_create_ok {em : EntityManager} (h : em.entitiesLiving < ENTITY_MAX) :
    em.create = .ok (em.entitiesAvailable.headD 0,
      { em with
          entitiesAvailable := em.entitiesAvailable.tail
          entitiesLiving := em.entitiesLiving + 1 }) := by
  simp [EntityManager.create, h]

theorem em_create_err {em : EntityManager} (h : ENTITY_MAX ≤ em.entitiesLiving) :
    em.create = .error .capacityExceeded := by
  simp [EntityManager.create, Nat.not_lt.mpr h]

theorem em_destroy_ok {em : EntityManager} {e : Nat} (h : e < ENTITY_MAX) :
    em.destroy e = .ok
      { entitiesAvailable := em.entitiesAvailable ++ [e]
        entitiesLiving := decWrap em.entitiesLiving
        signatures := fun x => if x = e then 0 else em.signatures x } := by
  simp [EntityManager.destroy, h]

theorem em_destroy_err {em : EntityManager} {e : Nat} (h : ENTITY_MAX ≤ e) :
    em.destroy e = .error .invalidEntity := by
  simp [EntityManager.destroy, Nat.not_lt.mpr h]

theorem nodup_length_le {l : List Nat} {n : Nat} (nd : l.Nodup)
    (hb : ∀ x ∈ l, x < n) : l.length ≤ n := by
  have h1 : l.toFinset.card = l.length := List.toFinset_card_of_nodup nd
  have h2 : l.toFinset ⊆ Finset.range n := by
    intro x hx
    exact Finset.mem_range.mpr (hb x (List.mem_toFinset.mp hx))
  have h3 := Finset.card_le_card h2
  rw [h1, Finset.card_range] at h3
  exact h3

theorem em_init_avail : EntityManager.init.entitiesAvailable = List.range' 0 ENTITY_MAX := rfl

theorem em_init_living : EntityManager.init.entitiesLiving = 0 := rfl

theorem emInv_init : EMInv EntityManager.init := by
  refine ⟨?_, ?_, ?_⟩
  · rw [em_init_avail]
    exact List.nodup_range' ..
  · intro e he
    rw [em_init_avail] at he
    have h1 := List.mem_range'_1.mp he
    exact ⟨by omega, rfl⟩
  · rw [em_init_avail, em_init_living, List.length_range']
    omega

theorem emInv_create_preserve {em : EntityManager} (inv : EMInv em)
    (h : em.entitiesLiving < ENTITY_MAX) :
    EMInv { em with
      entitiesAvailable := em.entitiesAvailable.tail
      entitiesLiving := em.entitiesLiving + 1 } := by
  obtain ⟨nd, hmem, hsum⟩ := inv
  refine ⟨nd.sublist (List.tail_sublist _), ?_, ?_⟩
  · intro e he
    exact hmem e (List.mem_of_mem_tail he)
  · simp only [List.length_tail]
    omega

theorem emInv_destroy_preserve {em : EntityManager} {e : Nat} (inv : EMInv em)
    (he : e < ENTITY_MAX) (hne : e ∉ em.entitiesAvailable) :
    EMInv { entitiesAvailable := em.entitiesAvailable ++ [e]
            entitiesLiving := decWrap em.entitiesLiving
            signatures := fun x => if x = e then 0 else em.signatures x } := by
  obtain ⟨nd, hmem, hsum⟩ := inv
  have hlen : em.entitiesAvailable.length + 1 ≤ ENTITY_MAX := by
    have hnd : (e :: em.entitiesAvailable).Nodup := List.nodup_cons.mpr ⟨hne, nd⟩
    have hb : ∀ x ∈ e :: em.entitiesAvailable, x < ENTITY_MAX := by
      intro x hx
      rcases List.mem_cons.mp hx with h1 | h1
      · exact h1 ▸ he
      · exact (hmem x h1).1
    simpa using nodup_length_le hnd hb
  have hliving : 1 ≤ em.entitiesLiving := by omega
  refine ⟨?_, ?_, ?_⟩
  · rw [List.nodup_append]
    refine ⟨nd, List.nodup_singleton _, ?_⟩
    intro a ha hb
    simp at hb
    exact hne (hb ▸ ha)
  · intro x hx
    rcases List.mem_append.mp hx with h1 | h1
    · refine ⟨(hmem x h1).1, ?_⟩
      by_cases hxe : x = e <;> simp [hxe, (hmem x h1).2]
    · simp at h1
      subst h1
      simp [he]
  · show decWrap em.entitiesLiving + (em.entitiesAvailable ++ [e]).length = ENTITY_MAX
    unfold decWrap
    rw [if_neg (by omega : ¬ em.entitiesLiving = 0)]
    simp only [List.length_append, List.length_singleton]
    omega

theorem emInv_step {em em' : EntityManager} {op : EMOp} (inv : EMInv em)
    (hv : emValidOp em op = true) (h : emStep em op = .ok em') : EMInv em' := by
  cases op with
  | create =>
    have hlt : em.entitiesLiving < ENTITY_MAX := by
      simpa [emValidOp] using hv
    rw [emStep, em_create_ok hlt] at h
    have h2 := Except.ok.inj h
    subst h2
    exact emInv_create_preserve inv hlt
  | destroy e =>
    have hv' : e < ENTITY_MAX ∧ e ∉ em.entitiesAvailable := by
      simpa [emValidOp] using hv
    rw [emStep, em_destroy_ok hv'.1] at h
    have h2 := Except.ok.inj h
    subst h2
    exact emInv_destroy_preserve inv hv'.1 hv'.2

theorem emInv_run {ops : List EMOp} :
    ∀ {em em' : EntityManager}, EMInv em → emValidSeq em ops = true →
      emRun em ops = .ok em' → EMInv em' := by
  induction ops with
  | nil =>
    intro em em' inv _ h
    simp only [emRun] at h
    injection h with h
    subst h
    exact inv
  | cons op rest ih =>
    intro em em' inv hv h
    rw [emValidSeq, Bool.and_eq_true] at hv
    cases hstep : emStep em op with
    | error err =>
      rw [hstep] at hv
      simp at hv
    | ok em1 =>
      rw [hstep] at hv
      have inv1 := emInv_step inv hv.1 hstep
      rw [emRun, hstep] at h
      exact ih inv1 hv.2 h

theorem em_liveCount_eq {em : EntityManager} (inv : EMInv em) :
    em.liveCount = em.entitiesLiving := by
  obtain ⟨nd, hmem, hsum⟩ := inv
  have hA : (Finset.range ENTITY_MAX).filter (fun e => e ∈ em.entitiesAvailable) =
      em.entitiesAvailable.toFinset := by
    ext x
    simp only [Finset.mem_filter, Finset.mem_range, List.mem_toFinset]
    constructor
    · exact fun h => h.2
    · exact fun h => ⟨(hmem x h).1, h⟩
  have hsplit := Finset.filter_card_add_filter_neg_card_eq_card
    (s := Finset.range ENTITY_MAX) (p := fun e => e ∈ em.entitiesAvailable)
  rw [hA, List.toFinset_card_of_nodup nd, Finset.card_range] at hsplit
  unfold EntityManager.liveCount
  omega

theorem removeAt_fields {T : Type} (c : ComponentContainer T) (iR e eL0 : Nat)
    (hgetD : (alLookup c.mapIndexToEntity (c.size - 1)).getD 0 = eL0) :
    (c.removeAt iR e).mapEntityToIndex = alErase (alSetd c.mapEntityToIndex eL0 iR) e ∧
    (c.removeAt iR e).mapIndexToEntity =
      alErase (alSetd c.mapIndexToEntity iR eL0) (c.size - 1) ∧
    (c.removeAt iR e).components =
      (fun i => if i = iR then c.components (c.size - 1) else c.components i) ∧
    (c.removeAt iR e).size = c.size - 1 := by
  subst hgetD
  exact ⟨rfl, rfl, rfl, rfl⟩

/-- Claim C6: for every component store, removing a mapped entity (the
last-slot case included) leaves the occupied slots exactly `[0, size)`
with the two maps mutually inverse over them (`CWF`), shrinks the count
by one, unmaps the removed entity, and preserves every surviving mapped
entity's stored value (in particular the entity relocated from the last
slot keeps its value). -/
theorem c6_swap_remove {T : Type} (c c' : ComponentContainer T) (e : Nat)
    (hwf : CWF c) (hrem : c.remove e = .ok c') :
    CWF c' ∧ c'.size = c.size - 1 ∧ alLookup c'.mapEntityToIndex e = none ∧
    (∀ e1 i, e1 ≠ e → alLookup c.mapEntityToIndex e1 = some i →
      ∃ i1, alLookup c'.mapEntityToIndex e1 = some i1 ∧
        c'.components i1 = c.components i) := by
  obtain ⟨ndE, ndI, hE, hI, hFull⟩ := hwf
  cases hlook : alLookup c.mapEntityToIndex e with
  | none =>
    rw [ComponentContainer.remove, hlook] at hrem
    exact absurd hrem (by simp)
  | some iR =>
    have hrem2 : c' = c.removeAt iR e := by
      rw [ComponentContainer.remove, hlook] at hrem
      exact (Except.ok.inj hrem).symm
    subst hrem2
    have hmemE : (e, iR) ∈ c.mapEntityToIndex := mem_of_alLookup hlook
    have hiR : iR < c.size := (hE _ hmemE).1
    have hI2eiR : alLookup c.mapIndexToEntity iR = some e := (hE _ hmemE).2
    obtain ⟨eL0, hL⟩ : ∃ x, alLookup c.mapIndexToEntity (c.size - 1) = some x :=
      Option.isSome_iff_exists.mp (hFull (c.size - 1) (by omega))
    have hmemI : (c.size - 1, eL0) ∈ c.mapIndexToEntity := mem_of_alLookup hL
    have hE2eL : alLookup c.mapEntityToIndex eL0 = some (c.size - 1) := (hI _ hmemI).2
    have hgetD : (alLookup c.mapIndexToEntity (c.size - 1)).getD 0 = eL0 := by
      rw [hL]
      rfl
    obtain ⟨hfE, hfI, hfC, hfS⟩ := removeAt_fields c iR e eL0 hgetD
    have hdich : eL0 = e ↔ iR = c.size - 1 := by
      constructor
      · intro h
        rw [h, hlook] at hE2eL
        exact Option.some.inj hE2eL
      · intro h
        rw [← h, hI2eiR] at hL
        exact (Option.some.inj hL).symm
    have hElook : ∀ x, alLookup (c.removeAt iR e).mapEntityToIndex x =
        if x = e then none
        else if x = eL0 then some iR
        else alLookup c.mapEntityToIndex x := by
      intro x
      rw [hfE]
      by_cases hx : x = e
      · subst hx
        simp
      · rw [alLookup_alErase_ne _ _ _ hx, if_neg hx]
        by_cases hx2 : x = eL0
        · subst hx2
          simp
        · rw [alLookup_alSetd_ne _ _ _ _ hx2, if_neg hx2]
    have hIlook : ∀ j, alLookup (c.removeAt iR e).mapIndexToEntity j =
        if j = c.size - 1 then none
        else if j = iR then some eL0
        else alLookup c.mapIndexToEntity j := by
      intro j
      rw [hfI]
      by_cases hj : j = c.size - 1
      · subst hj
        simp
      · rw [alLookup_alErase_ne _ _ _ hj, if_neg hj]
        by_cases hj2 : j = iR
        · subst hj2
          simp
        · rw [alLookup_alSetd_ne _ _ _ _ hj2, if_neg hj2]
    have ndE2 : (alKeys (c.removeAt iR e).mapEntityToIndex).Nodup := by
      rw [hfE]
      exact alKeys_alErase_nodup _ (alKeys_alSetd_nodup _ _ ndE)
    have ndI2 : (alKeys (c.removeAt iR e).mapIndexToEntity).Nodup := by
      rw [hfI]
      exact alKeys_alErase_nodup _ (alKeys_alSetd_nodup _ _ ndI)
    refine ⟨⟨ndE2, ndI2, ?_, ?_, ?_⟩, hfS, ?_, ?_⟩
    · intro p hp
      rw [hfE] at hp
      have h1 := mem_alErase.mp hp
      rcases mem_alSetd ndE h1.1 with h2 | h2
      · have hne : eL0 ≠ e := by
          intro h
          exact h1.2 (by rw [h2, h])
        have hiRne : iR ≠ c.size - 1 := fun h => hne (hdich.mpr h)
        rw [h2]
        constructor
        · rw [hfS]
          omega
        · rw [hIlook, if_neg hiRne, if_pos rfl]
      · have hne1 : p.1 ≠ eL0 := h2.2
        have hne2 : p.1 ≠ e := h1.2
        have hold := hE p h2.1
        have hp2ne : p.2 ≠ c.size - 1 := by
          intro h
          have hx := hold.2
          rw [h, hL] at hx
          exact hne1 (Option.some.inj hx).symm
        have hp2neR : p.2 ≠ iR := by
          intro h
          have hx := hold.2
          rw [h, hI2eiR] at hx
          exact hne2 (Option.some.inj hx).symm
        constructor
        · rw [hfS]
          omega
        · rw [hIlook, if_neg hp2ne, if_neg hp2neR]
          exact hold.2
    · intro q hq
      rw [hfI] at hq
      have h1 := mem_alErase.mp hq
      rcases mem_alSetd ndI h1.1 with h2 | h2
      · have hiRne : iR ≠ c.size - 1 := by
          intro h
          exact h1.2 (by rw [h2, h])
        have hne : eL0 ≠ e := fun h => hiRne (hdich.mp h)
        rw [h2]
        constructor
        · rw [hfS]
          omega
        · rw [hElook, if_neg hne, if_pos rfl]
      · have hne1 : q.1 ≠ iR := h2.2
        have hne2 : q.1 ≠ c.size - 1 := h1.2
        have hold := hI q h2.1
        have hq2ne : q.2 ≠ e := by
          intro h
          have hx := hold.2
          rw [h, hlook] at hx
          exact hne1 (Option.some.inj hx).symm
        have hq2neL : q.2 ≠ eL0 := by
          intro h
          have hx := hold.2
          rw [h, hE2eL] at hx
          exact hne2 (Option.some.inj hx).symm
        constructor
        · rw [hfS]
          omega
        · rw [hElook, if_neg hq2ne, if_neg hq2neL]
          exact hold.2
    · intro i hi
      rw [hfS] at hi
      rw [hIlook, if_neg (by omega : ¬ i = c.size - 1)]
      by_cases hiR2 : i = iR
      · rw [if_pos hiR2]
        rfl
      · rw [if_neg hiR2]
        exact hFull i (by omega)
    · rw [hElook, if_pos rfl]
    · intro e1 i hne hlk
      by_cases he1 : e1 = eL0
      · subst he1
        have hieq : i = c.size - 1 := by
          rw [hE2eL] at hlk
          exact (Option.some.inj hlk).symm
        refine ⟨iR, ?_, ?_⟩
        · rw [hElook, if_neg hne, if_pos rfl]
        · rw [hfC]
          simp [hieq]
      · have hiR2 : i ≠ iR := by
          intro h
          have hm := mem_of_alLookup hlk
          have hx := (hE _ hm).2
          rw [h, hI2eiR] at hx
          exact hne (Option.some.inj hx).symm
        refine ⟨i, ?_, ?_⟩
        · rw [hElook, if_neg hne, if_neg he1]
          exact hlk
        · rw [hfC]
          simp [hiR2]

theorem em_create_sig {em : EntityManager}
    (hz : ∀ x ∈ em.entitiesAvailable, em.signatures x = 0)
    (hne : em.entitiesAvailable ≠ []) :
    ∀ h em3, em.create = .ok (h, em3) → em3.signatures h = 0 := by
  intro h em3 hcr
  unfold EntityManager.create at hcr
  by_cases hl : em.entitiesLiving < ENTITY_MAX
  · rw [if_pos hl] at hcr
    have h2 := Except.ok.inj hcr
    rw [Prod.mk.injEq] at h2
    rw [← h2.1, ← h2.2]
    show em.signatures (em.entitiesAvailable.headD 0) = 0
    cases hav : em.entitiesAvailable with
    | nil => exact absurd hav hne
    | cons a t =>
      exact hz a (by rw [hav]; exact List.mem_cons_self a t)
  · rw [if_neg hl] at hcr
    exact absurd hcr (by simp)

theorem createN_spec : ∀ (k : Nat) (em : EntityManager),
    em.entitiesLiving + k ≤ ENTITY_MAX → k ≤ em.entitiesAvailable.length →
    createN em k = .ok (em.entitiesAvailable.take k,
      { em with
          entitiesAvailable := em.entitiesAvailable.drop k
          entitiesLiving := em.entitiesLiving + k }) := by
  intro k
  induction k with
  | zero =>
    intro em h1 h2
    simp [createN]
  | succ k ih =>
    intro em h1 h2
    have hlt : em.entitiesLiving < ENTITY_MAX := by omega
    cases hav : em.entitiesAvailable with
    | nil =>
      rw [hav] at h2
      simp at h2
    | cons a t =>
      have hcr := em_create_ok hlt
      rw [hav] at h2
      have h2t : k ≤ t.length := by
        rw [List.length_cons] at h2
        omega
      have hih := ih { em with
          entitiesAvailable := em.entitiesAvailable.tail
          entitiesLiving := em.entitiesLiving + 1 }
        (by show em.entitiesLiving + 1 + k ≤ ENTITY_MAX; omega)
        (by show k ≤ em.entitiesAvailable.tail.length
            rw [hav, List.tail_cons]
            exact h2t)
      have hred : createN em (k + 1) =
          match createN { em with
              entitiesAvailable := em.entitiesAvailable.tail
              entitiesLiving := em.entitiesLiving + 1 } k with
          | .error err => .error err
          | .ok (rest, em2) => .ok (em.entitiesAvailable.headD 0 :: rest, em2) := by
        rw [show createN em (k + 1) =
            (match em.create with
            | .error err => .error err
            | .ok (e, em1) =>
              match createN em1 k with
              | .error err => .error err
              | .ok (rest, em2) => .ok (e :: rest, em2)) from rfl]
        rw [hcr]
      rw [hred, hih, hav]
      simp only [List.headD_cons, List.tail_cons, List.take_succ_cons, List.drop_succ_cons]
      have harith : em.entitiesLiving + 1 + k = em.entitiesLiving + (k + 1) := by omega
      rw [harith]

/-- Claim C1: the membership test `signatureChanged` performs is NOT the
per-bit `(newSignature & mask) == mask` the spec mandates: the source's
logical-AND test (`membershipTestCode`) and the spec's bitwise test
(`membershipTestSpec`) disagree at entity signature `0b10` with system
mask `0b01` — the source's test accepts the entity although it lacks the
required bit. -/
theorem c1_membership_test_is_logical_and :
    membershipTestCode 2 1 = true ∧ membershipTestSpec 2 1 = false := by
  decide

/-- Claim C2: the query-correctness invariant fails on the code.  In the
state reached by `c2Run` the entity `0` is live (in range and not in the
recycling pool), its signature `0b11` satisfies the installed system's
mask `0b10` bitwise, and yet the system's membership set is empty,
because `signatureChanged` uses the logical-AND test. -/
theorem c2_query_invariant_violated :
    c2Run.isOk = true ∧
    alLookup c2Reg.systemManager.signatures 100 = some 2 ∧
    alLookup c2Reg.systemManager.systems 100 = some [] ∧
    c2Reg.entityManager.signatures 0 = 3 ∧
    ((3 : Nat) &&& 2) = 2 ∧
    0 < ENTITY_MAX ∧
    0 ∉ c2Reg.entityManager.entitiesAvailable := by
  refine ⟨rfl, rfl, rfl, rfl, by decide, by decide, ?_⟩
  have h : c2Reg.entityManager.entitiesAvailable = List.range' 1 (ENTITY_MAX - 1) := rfl
  rw [h]
  intro hmem
  have := List.mem_range'_1.mp hmem
  omega

/-- Claim C3: `Registry::componentAdd` does not check for prior
registration before installing; the second `componentAdd` of the same
component type — here to a different entity, which the claim says must
succeed — fails with the duplicate-registration error. -/
theorem c3_second_add_duplicate_registration :
    c3Run1.isOk = true ∧ c3Run2 = .error .duplicateReg :=
  ⟨rfl, rfl⟩

/-- Claim C4 counterexample: after installing system `7` and setting its
mask to `1`, a second `systemSignature` call with mask `2` succeeds but
leaves the stored mask at `1` (`std::unordered_map::insert` does not
overwrite), contradicting the claim that the mask is replaced by the most
recently set value. -/
theorem c4_counterexample_first_mask_wins :
    c4Res.isOk = true ∧ alLookup c4Sm2.signatures 7 = some 1 :=
  ⟨rfl, rfl⟩

/-- Claim C4 (amended): `SystemManager::signature` fails with NotRegistered
when the system is unknown; on success it leaves the systems map
unchanged and stores the given mask only when no mask is stored yet — a
previously stored mask is kept (first set wins), because the C++ uses
`std::unordered_map::insert`. -/
theorem c4_amended_set_mask (sm : SystemManager) (ty m : Nat) :
    (alLookup sm.systems ty = none →
      SystemManager.signature sm ty m = .error .notRegistered) ∧
    (∀ sm', SystemManager.signature sm ty m = .ok sm' →
      alLookup sm'.signatures ty = some ((alLookup sm.signatures ty).getD m) ∧
      sm'.systems = sm.systems ∧ (alLookup sm.systems ty).isSome = true) := by
  constructor
  · intro h
    simp [SystemManager.signature, h]
  · intro sm' h
    unfold SystemManager.signature at h
    by_cases hs : (alLookup sm.systems ty).isSome
    · simp only [hs, if_pos] at h
      have h2 := (Except.ok.inj h).symm
      subst h2
      refine ⟨?_, rfl, hs⟩
      cases hsig : alLookup sm.signatures ty with
      | none =>
        rw [alLookup_alInsert_absent _ _ _ hsig]
        rfl
      | some w =>
        rw [alLookup_alInsert_present _ _ _ (by rw [hsig]; rfl)]
        rw [hsig]
        rfl
    · simp [hs] at h

/-- Witness for the amended C4 theorem at concrete inputs: an unknown
system yields NotRegistered, and on `c4Sm1` (mask `1` already stored) a
second set keeps mask `1`. -/
theorem c4_amended_set_mask_witness :
    SystemManager.init.signature 3 9 = .error .notRegistered ∧
    alLookup c4Sm2.signatures 7 = some ((alLookup c4Sm1.signatures 7).getD 2) := by
  constructor
  · exact (c4_amended_set_mask SystemManager.init 3 9).1 rfl
  · exact ((c4_amended_set_mask c4Sm1 7 2).2 c4Sm2 rfl).1

/-- Claim C5 counterexample: after `create` and `destroy 0` on a fresh
allocator, handle `0` is not live (it sits in the recycling pool), yet a
second `destroy 0` succeeds instead of failing with InvalidEntity:
`EntityManager::destroy` checks only the range bound. -/
theorem c5_counterexample_double_destroy_ok :
    c5Res.isOk = true ∧ 0 ∈ c5Em.entitiesAvailable := by
  constructor
  · rfl
  · have h : c5Em.entitiesAvailable = (List.range' 0 ENTITY_MAX).tail ++ [0] := rfl
    rw [h]
    simp

/-- Claim C5 (amended): `destroy` fails with InvalidEntity exactly when the
handle is at or above ENTITY_MAX; liveness is not checked — for any
in-range handle, live or not, the call succeeds, resets the stored
signature, appends the handle to the recycling queue and decrements the
living counter (wrapping at zero). -/
theorem c5_amended_destroy_range_only (em : EntityManager) (e : Nat) :
    (e < ENTITY_MAX → em.destroy e = .ok
      { entitiesAvailable := em.entitiesAvailable ++ [e]
        entitiesLiving := decWrap em.entitiesLiving
        signatures := fun x => if x = e then 0 else em.signatures x }) ∧
    (ENTITY_MAX ≤ e → em.destroy e = .error .invalidEntity) :=
  ⟨fun h => em_destroy_ok h, fun h => em_destroy_err h⟩

/-- Witness for the amended C5 theorem at concrete inputs: destroying the
out-of-range handle `9999` fails, and destroying the non-live in-range
handle `3` of `c9em` succeeds with the described state. -/
theorem c5_amended_destroy_range_only_witness :
    EntityManager.init.destroy 9999 = .error .invalidEntity ∧
    c9em.destroy 3 = .ok
      { entitiesAvailable := c9em.entitiesAvailable ++ [3]
        entitiesLiving := decWrap c9em.entitiesLiving
        signatures := fun x => if x = 3 then 0 else c9em.signatures x } := by
  constructor
  · exact (c5_amended_destroy_range_only EntityManager.init 9999).2 (by decide)
  · exact (c5_amended_destroy_range_only c9em 3).1 (by decide)

/-- Witness for the C6 swap-remove theorem on the concrete store `c6c0`:
removing entity `9` (slot `1`) keeps the store well-formed, shrinks it to
two dense slots, unmaps `9`, and the relocated entity `7` keeps its value
`30` in its new slot `1`. -/
theorem c6_swap_remove_witness :
    CWF c6c0 ∧ c6c0.remove 9 = .ok c6c1 ∧ CWF c6c1 ∧ c6c1.size = 2 ∧
    alLookup c6c1.mapEntityToIndex 9 = none ∧
    alLookup c6c1.mapEntityToIndex 7 = some 1 ∧ c6c1.components 1 = 30 := by
  have hwf : CWF c6c0 := by
    unfold CWF
    decide
  have hrem : c6c0.remove 9 = .ok c6c1 := rfl
  have h := c6_swap_remove c6c0 c6c1 9 hwf hrem
  exact ⟨hwf, hrem, h.1, h.2.1, h.2.2.1, rfl, rfl⟩

/-- Claim C7: the signature/storage agreement fails on the code.  After
`componentAdd` of type `5` to entity `0` in `c7Run`, bit `0` of the
entity's signature is set, but the store for that type contains no entry
for the entity (its maps are empty and its count is `0`), because
`Registry::componentAdd` never inserts into the store; `componentGet`
accordingly fails with MissingComponent. -/
theorem c7_signature_bit_without_storage :
    c7Run.isOk = true ∧
    Nat.testBit (c7Reg.entityManager.signatures 0) 0 = true ∧
    alLookup c7Cont.mapEntityToIndex 0 = none ∧
    c7Cont.size = 0 ∧
    c7Reg.componentGet 5 0 = .error .missingComponent := by
  refine ⟨rfl, ?_, rfl, rfl, rfl⟩
  have h : c7Reg.entityManager.signatures 0 = 1 := rfl
  rw [h]
  decide

/-- Claim C8: along any create/destroy sequence from a fresh allocator in
which every call meets its precondition, the number of live handles
equals the living counter and never exceeds ENTITY_MAX; `create` fails
with CapacityExceeded when the counter is at ENTITY_MAX; and after any
destroy, the next created handle carries the all-zero signature,
whatever signature the destroyed entity had. -/
theorem c8_recycling (ops : List EMOp) (em' : EntityManager)
    (hv : emValidSeq EntityManager.init ops = true)
    (hrun : emRun EntityManager.init ops = .ok em') :
    em'.liveCount = em'.entitiesLiving ∧
    em'.entitiesLiving ≤ ENTITY_MAX ∧
    (em'.entitiesLiving = ENTITY_MAX → em'.create = .error .capacityExceeded) ∧
    (∀ e em2 h em3, em'.destroy e = .ok em2 → em2.create = .ok (h, em3) →
      em3.signatures h = 0) := by
  have inv := emInv_run emInv_init hv hrun
  obtain ⟨nd, hmem, hsum⟩ := inv
  refine ⟨em_liveCount_eq ⟨nd, hmem, hsum⟩, by omega, ?_, ?_⟩
  · intro h
    exact em_create_err (le_of_eq h.symm)
  · intro e em2 h em3 hdes hcr
    by_cases he : e < ENTITY_MAX
    · rw [em_destroy_ok he] at hdes
      have h2 := (Except.ok.inj hdes)
      have hz : ∀ x ∈ em2.entitiesAvailable, em2.signatures x = 0 := by
        rw [← h2]
        intro x hx
        rcases List.mem_append.mp hx with h3 | h3
        · by_cases hxe : x = e
          · simp [hxe]
          · simp only [hxe, if_neg, not_false_iff]
            exact (hmem x h3).2
        · simp at h3
          simp [h3]
      have hne : em2.entitiesAvailable ≠ [] := by
        rw [← h2]
        simp
      exact em_create_sig hz hne h em3 hcr
    · rw [em_destroy_err (Nat.not_lt.mp he)] at hdes
      exact absurd hdes (by simp)

/-- Witness for the C8 theorem: the one-call sequence `[create]` from the
fresh allocator is valid, runs to `c8em`, and the theorem bounds its
living counter. -/
theorem c8_recycling_witness :
    emValidSeq EntityManager.init [EMOp.create] = true ∧
    emRun EntityManager.init [EMOp.create] = .ok c8em ∧
    c8em.entitiesLiving ≤ ENTITY_MAX := by
  refine ⟨rfl, rfl, ?_⟩
  exact (c8_recycling [EMOp.create] c8em rfl rfl).2.1

/-- Claim C9: handle issuance is FIFO.  `k` consecutive creates pop the
first `k` queued handles in queue order (so a fresh allocator's first `k`
creates return `0, ..., k - 1`), and `destroy` appends the destroyed
handle at the back of the queue, behind every handle already available. -/
theorem c9_fifo :
    (∀ (em : EntityManager) (k : Nat), em.entitiesLiving + k ≤ ENTITY_MAX →
      k ≤ em.entitiesAvailable.length →
      createN em k = .ok (em.entitiesAvailable.take k,
        { em with
            entitiesAvailable := em.entitiesAvailable.drop k
            entitiesLiving := em.entitiesLiving + k })) ∧
    (∀ k, k ≤ ENTITY_MAX →
      (createN EntityManager.init k).map Prod.fst = .ok (List.range k)) ∧
    (∀ (em : EntityManager) (e : Nat), e < ENTITY_MAX →
      em.destroy e = .ok
        { entitiesAvailable := em.entitiesAvailable ++ [e]
          entitiesLiving := decWrap em.entitiesLiving
          signatures := fun x => if x = e then 0 else em.signatures x }) := by
  refine ⟨fun em k h1 h2 => createN_spec k em h1 h2, ?_, fun em e h => em_destroy_ok h⟩
  intro k hk
  have h := createN_spec k EntityManager.init
    (by rw [em_init_living]; omega)
    (by rw [em_init_avail, List.length_range']; exact hk)
  rw [h]
  have htake : EntityManager.init.entitiesAvailable.take k = List.range k := by
    rw [em_init_avail]
    have hsplit : List.range' 0 ENTITY_MAX = List.range' 0 k ++ List.range' k (ENTITY_MAX - k) := by
      have h0 := List.range'_append 0 k (ENTITY_MAX - k) 1
      simp only [Nat.one_mul, Nat.zero_add] at h0
      rw [h0]
      congr 1
      omega
    have htl := @List.take_left Nat (List.range' 0 k) (List.range' k (ENTITY_MAX - k))
    rw [List.length_range'] at htl
    rw [hsplit, htl, ← List.range_eq_range']
  rw [htake]
  rfl

/-- Witness for the C9 theorem at concrete inputs: two creates on the
small allocator `c9em` pop `[3, 1]` in queue order, and the first two
creates on the fresh allocator return `[0, 1]`. -/
theorem c9_fifo_witness :
    createN c9em 2 = .ok (c9em.entitiesAvailable.take 2,
      { c9em with
          entitiesAvailable := c9em.entitiesAvailable.drop 2
          entitiesLiving := c9em.entitiesLiving + 2 }) ∧
    c9em.entitiesAvailable.take 2 = [3, 1] ∧
    (createN EntityManager.init 2).map Prod.fst = .ok (List.range 2) := by
  refine ⟨?_, rfl, ?_⟩
  · exact c9_fifo.1 c9em 2 (by decide) (by decide)
  · exact c9_fifo.2.1 2 (by decide)

/-- Claim C10: the signature getter checks only the range bound — it
succeeds exactly on handles below ENTITY_MAX regardless of liveness;
immediately after a destroy the destroyed handle reads the all-zero
signature; a never-created in-range handle of a fresh allocator also
reads all-zero; and no create/destroy step can make a zero signature
non-zero (so the zero reading persists until the handle's signature is
explicitly set again). -/
theorem c10_signature_get_range_only (em : EntityManager) (e : Nat) :
    ((em.signatureGet e).isOk = true ↔ e < ENTITY_MAX) ∧
    (∀ em2, e < ENTITY_MAX → em.destroy e = .ok em2 → em2.signatureGet e = .ok 0) ∧
    (e < ENTITY_MAX → EntityManager.init.signatureGet e = .ok 0) ∧
    (∀ op em2, emStep em op = .ok em2 → em.signatures e = 0 → em2.signatures e = 0) := by
  refine ⟨?_, ?_, ?_, ?_⟩
  · unfold EntityManager.signatureGet
    by_cases h : e < ENTITY_MAX <;> simp [h, Except.isOk, Except.toBool]
  · intro em2 he hdes
    rw [em_destroy_ok he] at hdes
    have h2 := Except.ok.inj hdes
    subst h2
    show (if e < ENTITY_MAX then Except.ok (if e = e then 0 else em.signatures e)
      else Except.error Err.invalidEntity) = Except.ok 0
    rw [if_pos he, if_pos rfl]
  · intro he
    unfold EntityManager.signatureGet
    rw [if_pos he]
    rfl
  · intro op em2 hstep hz
    cases op with
    | create =>
      by_cases hl : em.entitiesLiving < ENTITY_MAX
      · rw [emStep, em_create_ok hl] at hstep
        have h2 := Except.ok.inj hstep
        rw [← h2]
        exact hz
      · rw [emStep, em_create_err (Nat.not_lt.mp hl)] at hstep
        exact Except.noConfusion hstep
    | destroy d =>
      by_cases hd : d < ENTITY_MAX
      · rw [emStep, em_destroy_ok hd] at hstep
        have h2 := Except.ok.inj hstep
        rw [← h2]
        show (if e = d then 0 else em.signatures e) = 0
        by_cases hed : e = d <;> simp [hed, hz]
      · rw [emStep, em_destroy_err (Nat.not_lt.mp hd)] at hstep
        exact Except.noConfusion hstep

/-- Witness for the C10 theorem at concrete inputs: reading the signature
of the non-live in-range handle `3` of `c9em` succeeds, and the
never-created handle `123` of a fresh allocator reads all-zero. -/
theorem c10_signature_get_range_only_witness :
    (c9em.signatureGet 3).isOk = true ∧
    EntityManager.init.signatureGet 123 = .ok 0 := by
  constructor
  · exact ((c10_signature_get_range_only c9em 3).1).mpr (by decide)
  · exact (c10_signature_get_range_only EntityManager.init 123).2.2.1 (by decide)

end ECS
